import Mathlib

/-!
# oregonsnap: plant registry, world generator and capture rule

A shallow embedding of `src/main.c` and the properties its specification states.

Conventions of the embedding.

* The C globals are the fields of `State`; every C function that reads or writes
  them is a function `State → State`.
* A C `int` is a Lean `Int` and its arithmetic is that of the integers: signed
  overflow is undefined in C, and a run stays far inside the 32-bit range (the
  player moves 2 units per frame).  C's `/` and `%` truncate toward zero: they
  are `Int.tdiv` and `Int.tmod`.
* `rand()` is an oracle `r : Nat → Nat`: the k-th call of the process returns
  `r k`; the state counts the calls made so far.
* A fixed-size C array is a list, read with `arrGet` and written with `arrSet`.
* The files written by `IMG_SavePNG` are recorded, in order, by their paths.
* Rendering calls change no global and are the identity on `State`.
-/

namespace OregonSnap

/-! ## Constants and data model -/

def WIDTH : Int := 1280
def HEIGHT : Int := 720
def PLANT_TYPES : Int := 4
def FOCUS_RANGE : Int := 256

/-- The rectangle type of the toolkit: top-left corner, width, height. -/
structure SDL_Rect where
  x : Int
  y : Int
  w : Int
  h : Int
deriving DecidableEq, Repr

/-- One entry of the plant registry (`typedef struct { ... } Plant`). -/
structure Plant where
  x : Int
  y : Int
  sprite : SDL_Rect
  active : Int
  id : Int
deriving DecidableEq, Repr

/-- Species names, `plantNames[id]`. -/
def plantNames (id : Int) : String :=
  if id = 0 then "Lupine"
  else if id = 1 then "Trillium"
  else if id = 2 then "Golden Paintbrush"
  else if id = 3 then "Oregon Grape"
  else ""

/-- Sprite-sheet regions, `plantSprites[id]`. -/
def plantSprites (id : Int) : SDL_Rect :=
  if id = 0 then ⟨0, 0, 64, 64⟩
  else if id = 1 then ⟨64, 0, 64, 64⟩
  else if id = 2 then ⟨0, 64, 64, 64⟩
  else if id = 3 then ⟨64, 64, 64, 64⟩
  else ⟨0, 0, 0, 0⟩

/-- The global variables of the program. -/
structure State where
  plants : List Plant
  plantCapacity : Int
  plantSnaps : List Int
  discovered : List Int
  photoPlantIds : List Int
  photoIndex : Int
  snapCount : Int
  playerWorldX : Int
  playerY : Int
  facingDirection : Int
  cameraX : Int
  showLogOverlay : Int
  mouseX : Int
  mouseY : Int
  currentBackground : Int
  messageBuffer : String
  messageTimer : Int
  running : Int
  fullscreen : Bool
  randCalls : Nat
  savedFiles : List String
deriving DecidableEq, Repr

/-- The number of registry entries, `plantCount`. -/
def State.plantCount (s : State) : Int := s.plants.length

/-- Reading `a[i]`. -/
def arrGet (a : List Int) (i : Int) : Int :=
  if 0 ≤ i then a.getD i.toNat 0 else 0

/-- Writing `a[i] = v`. -/
def arrSet (a : List Int) (i : Int) (v : Int) : List Int :=
  if 0 ≤ i then a.set i.toNat v else a

/-- What `snprintf(buf, size, ...)` leaves in `buf` for the formatted text: the
text itself when it fits with its terminator, else its first `size - 1` bytes. -/
def snprintf (size : Nat) (text : String) : String :=
  if text.length < size then text else text.take (size - 1)

/-- One call of `rand()`: the value returned and the state after it. -/
def rand (r : Nat → Nat) (s : State) : Int × State :=
  ((r s.randCalls : Int), { s with randCalls := s.randCalls + 1 })

/-! ## Plant registry -/

/-- Function `ensureCapacity`: doubles the capacity (64 at first) when the registry is
full.  The allocation is taken to succeed. -/
def ensureCapacity (s : State) : State :=
  if s.plantCount ≥ s.plantCapacity then
    { s with plantCapacity := if s.plantCapacity ≠ 0 then s.plantCapacity * 2 else 64 }
  else s

/-- The loop of `plantExistsNear` over the registry entries still to visit. -/
def plantExistsNearLoop : List Plant → Int → Int
  | [], _ => 0
  | p :: rest, x => if |p.x - x| < 400 then 1 else plantExistsNearLoop rest x

/-- Function `plantExistsNear`: 1 when some registry entry, active or not, is less
than 400 from `x` on the x axis, else 0. -/
def plantExistsNear (s : State) (x : Int) : Int :=
  plantExistsNearLoop s.plants x

/-- Function `addPlant`: appends an active plant of species `id` at (x, y). -/
def addPlant (s : State) (x y id : Int) : State :=
  let s1 := ensureCapacity s
  { s1 with plants := s1.plants ++ [⟨x, y, plantSprites id, 1, id⟩] }

/-! ## World generator -/

/-- The body of the `for` loop of `generatePlantsAroundPlayer` at the candidate
`x`: a plant of a random species is placed there, with a random vertical jitter,
unless a registry entry is near. -/
def placeCandidate (r : Nat → Nat) (groundY x : Int) (s : State) : State :=
  if plantExistsNear s x = 0 then
    let (v1, sa) := rand r s
    let id := v1.tmod PLANT_TYPES
    let (v2, sb) := rand r sa
    addPlant sb x (groundY + (v2.tmod 6 - 3)) id
  else s

/-- The `for` loop of `generatePlantsAroundPlayer`, from the candidate `x` on.
The fuel bounds the number of iterations; with the fuel that
`generatePlantsAroundPlayer` gives it the loop always ends by its exit test
`x < viewMaxX` (see `generateLoop_fuel_irrelevant`). -/
def generateLoop (r : Nat → Nat) (groundY viewMaxX : Int) : Nat → Int → State → State
  | 0, _, s => s
  | fuel + 1, x, s =>
    if x < viewMaxX then
      let s1 := placeCandidate r groundY x s
      let (v3, s2) := rand r s1
      generateLoop r groundY viewMaxX fuel (x + (600 + v3.tmod 400)) s2
    else s

/-- Function `generatePlantsAroundPlayer`.  Every stride is at least 600 > 0, so the
length of the window bounds the number of iterations. -/
def generatePlantsAroundPlayer (r : Nat → Nat) (s : State) : State :=
  let groundY := HEIGHT - 64
  let viewMinX := s.playerWorldX - 2000
  let viewMaxX := s.playerWorldX + 2000
  generateLoop r groundY viewMaxX (viewMaxX - viewMinX).toNat viewMinX s

/-! ## Messages and screenshots -/

/-- Function `showMessage`: copies the text into the message buffer and starts the
display timer. -/
def showMessage (msg : String) (s : State) : State :=
  { s with messageBuffer := snprintf 256 msg, messageTimer := 180 }

/-- Function `renderMessage`: draws the message and counts its timer down. -/
def renderMessage (s : State) : State :=
  if s.messageTimer ≤ 0 then s else { s with messageTimer := s.messageTimer - 1 }

/-- Function `renderSceneNoUI`: draws background, active plants and player. -/
def renderSceneNoUI (s : State) : State := s

/-- Function `saveScreenshot`: writes the rendered frame to `path`. -/
def saveScreenshot (path : String) (s : State) : State :=
  { s with savedFiles := s.savedFiles ++ [path] }

/-! ## Capture rule -/

/-- Function `SDL_HasIntersection` of the toolkit: false when either rectangle is
empty, else whether the two spans overlap on both axes. -/
def SDL_HasIntersection (A B : SDL_Rect) : Bool :=
  if A.w ≤ 0 ∨ A.h ≤ 0 ∨ B.w ≤ 0 ∨ B.h ≤ 0 then false
  else if min (A.x + A.w) (B.x + B.w) ≤ max A.x B.x then false
  else if min (A.y + A.h) (B.y + B.h) ≤ max A.y B.y then false
  else true

/-- The focus box of `takePhoto`, centred on the cursor. -/
def focusBoxOf (s : State) : SDL_Rect := ⟨s.mouseX - 16, s.mouseY - 16, 32, 32⟩

/-- The screen box of a plant under the camera offset of `s`. -/
def plantBoxOf (s : State) (p : Plant) : SDL_Rect := ⟨p.x - s.cameraX, p.y, 64, 64⟩

/-- The success path of `takePhoto` for the plant `p = plants[i]` (the statements
after the focus-range test): first-time discovery with its screenshot, then
deactivation and the counters. -/
def capturePlant (s : State) (i : Nat) (p : Plant) : State :=
  let s1 :=
    if arrGet s.discovered p.id = 0 then
      let sa := { s with discovered := arrSet s.discovered p.id 1 }
      let filename := snprintf 64 ("gallery/photo_" ++ toString sa.photoIndex ++ ".png")
      let sb := saveScreenshot filename (renderSceneNoUI sa)
      let sc := { sb with photoPlantIds := arrSet sb.photoPlantIds sb.photoIndex p.id }
      let sd := { sc with photoIndex := sc.photoIndex + 1 }
      let msg := snprintf 128 ("New plant documented: " ++ plantNames p.id ++ "!")
      showMessage msg sd
    else s
  let s2 := { s1 with plants := s1.plants.set i { p with active := 0 } }
  let s3 := { s2 with plantSnaps := arrSet s2.plantSnaps p.id (arrGet s2.plantSnaps p.id + 1) }
  { s3 with snapCount := s3.snapCount + 1 }

/-- The `for` loop of `takePhoto` from index `i` on; `rest` are the registry
entries `plants[i], plants[i+1], ...` still to visit. -/
def takePhotoLoop (s : State) (focusBox : SDL_Rect) : Nat → List Plant → State
  | _, [] => showMessage "Nothing to photograph there!" s
  | i, p :: rest =>
    if p.active = 0 then takePhotoLoop s focusBox (i + 1) rest
    else
      let plantBox : SDL_Rect := ⟨p.x - s.cameraX, p.y, 64, 64⟩
      if SDL_HasIntersection focusBox plantBox = false then
        takePhotoLoop s focusBox (i + 1) rest
      else
        let dx := s.playerWorldX - p.x
        let dy := s.playerY - p.y
        if dx * dx + dy * dy > FOCUS_RANGE * FOCUS_RANGE then
          showMessage "Out of focus! Get closer :]" s
        else capturePlant s i p

/-- Function `takePhoto`: the scan from index 0 with the focus box centred on the
cursor. -/
def takePhoto (s : State) : State :=
  takePhotoLoop s ⟨s.mouseX - 16, s.mouseY - 16, 32, 32⟩ 0 s.plants

/-! ## Main loop -/

/-- Function `viewGallery`: with no photo it only shows a message; otherwise it shows the
saved images in a window of its own and changes no global. -/
def viewGallery (s : State) : State :=
  if s.photoIndex = 0 then showMessage "Gallery is empty! Take some photos first." s
  else s

/-- The events the main loop tells apart. -/
inductive Event where
  | quit
  | leftClick
  | keyEscape
  | keyF11
  | keyC
  | keyG
  | other
deriving DecidableEq, Repr

/-- The body of the event-polling loop for one event. -/
def handleEvent (s : State) : Event → State
  | .quit => { s with running := 0 }
  | .leftClick => takePhoto s
  | .keyEscape => { s with running := 0 }
  | .keyF11 => { s with fullscreen := !s.fullscreen }
  | .keyC => { s with showLogOverlay := if s.showLogOverlay = 0 then 1 else 0 }
  | .keyG => viewGallery s
  | .other => s

/-- The event-polling loop `while (SDL_PollEvent(&e))` over the queued events. -/
def pollEvents (s : State) : List Event → State
  | [] => s
  | e :: es => pollEvents (handleEvent s e) es

/-- What one frame reads from outside: the queued events, whether A and D are
held, and the cursor position in logical coordinates. -/
structure FrameInput where
  events : List Event
  keyA : Bool
  keyD : Bool
  mx : Int
  my : Int
deriving DecidableEq, Repr

/-- The movement statements of the loop body: A moves the player 2 to the left,
D moves it 2 to the right, then the camera offset and the background index are
recomputed from the player position. -/
def movePlayer (s : State) (inp : FrameInput) : State :=
  let s1 := if inp.keyA then { s with playerWorldX := s.playerWorldX - 2, facingDirection := -1 } else s
  let s2 := if inp.keyD then { s1 with playerWorldX := s1.playerWorldX + 2, facingDirection := 1 } else s1
  let s3 := { s2 with cameraX := s2.playerWorldX - WIDTH.tdiv 2 }
  { s3 with currentBackground := (s3.playerWorldX.tdiv 3000).tmod 2 }

/-- The part of the loop body after event polling: movement and camera, top-up
of the plants, cursor, drawing. -/
def updateFrame (r : Nat → Nat) (s : State) (inp : FrameInput) : State :=
  let s4 := movePlayer s inp
  let s5 := generatePlantsAroundPlayer r s4
  let s6 := { s5 with mouseX := inp.mx, mouseY := inp.my }
  renderMessage (renderSceneNoUI s6)

/-- One iteration of the main loop: event polling, then the rest of the body. -/
def frame (r : Nat → Nat) (s : State) (inp : FrameInput) : State :=
  updateFrame r (pollEvents s inp.events) inp

/-- The values of the globals at their definitions, with `playerY` as `main` sets
it before the loop from the height `playerH` of the player image. -/
def initialGlobals (playerH : Int) : State :=
  { plants := [], plantCapacity := 0,
    plantSnaps := [0, 0, 0, 0], discovered := [0, 0, 0, 0], photoPlantIds := [0, 0, 0, 0],
    photoIndex := 0, snapCount := 0,
    playerWorldX := WIDTH.tdiv 2, playerY := HEIGHT - playerH, facingDirection := 1,
    cameraX := 0, showLogOverlay := 0, mouseX := 0, mouseY := 0, currentBackground := 0,
    messageBuffer := "", messageTimer := 0, running := 1, fullscreen := false,
    randCalls := 0, savedFiles := [] }

/-- The state on entry to the main loop: the globals after the first
`generatePlantsAroundPlayer()` of `main`. -/
def initialState (r : Nat → Nat) (playerH : Int) : State :=
  generatePlantsAroundPlayer r (initialGlobals playerH)

/-- The main loop `while (running)` over the inputs of successive frames. -/
def mainLoop (r : Nat → Nat) (s : State) : List FrameInput → State
  | [] => s
  | inp :: rest => if s.running ≠ 0 then mainLoop r (frame r s inp) rest else s

/-- The program's steps as seen between two statements of `main`: a top-up of
the plants, the handling of one polled event, the rest of a loop body. -/
inductive Step where
  | generate
  | event (e : Event)
  | update (inp : FrameInput)
deriving DecidableEq, Repr

/-- The effect of one step. -/
def step (r : Nat → Nat) (s : State) : Step → State
  | .generate => generatePlantsAroundPlayer r s
  | .event e => handleEvent s e
  | .update inp => updateFrame r s inp

/-- The effect of a sequence of steps. -/
def run (r : Nat → Nat) (s : State) : List Step → State
  | [] => s
  | st :: rest => run r (step r s st) rest

/-- The state of the program after `steps`, from the definitions of the globals. -/
def stateAfter (r : Nat → Nat) (playerH : Int) (steps : List Step) : State :=
  run r (initialGlobals playerH) steps

/-! ## Vocabulary of the properties -/

/-- The plant `p` is hit-tested positively by `takePhoto` in state `s`: it is
active and its 64x64 screen box intersects the 32x32 focus box. -/
def isCandidate (s : State) (p : Plant) : Prop :=
  p.active ≠ 0 ∧ SDL_HasIntersection (focusBoxOf s) (plantBoxOf s p) = true

instance (s : State) (p : Plant) : Decidable (isCandidate s p) := by
  unfold isCandidate; infer_instance

/-- The plant `p` is `plants[i]` and is the first candidate in registry order. -/
def FirstTarget (s : State) (i : Nat) (p : Plant) : Prop :=
  s.plants[i]? = some p ∧ isCandidate s p ∧ ∀ q ∈ s.plants.take i, ¬ isCandidate s q

instance (s : State) (i : Nat) (p : Plant) : Decidable (FirstTarget s i p) := by
  unfold FirstTarget; infer_instance

/-- Squared world distance from the player to a plant. -/
def distSq (s : State) (p : Plant) : Int :=
  (s.playerWorldX - p.x) ^ 2 + (s.playerY - p.y) ^ 2

/-- The number of discovered species. -/
def discoveredCount (s : State) : Int :=
  ((s.discovered.filter (fun v => v ≠ 0)).length : Int)

/-- The shape every state of a run has: the three per-species arrays have four
entries, every plant's species indexes them, the discovered flags are 0 or 1,
one photo was taken and one file written per discovered species. -/
def WellFormed (s : State) : Prop :=
  s.plantSnaps.length = 4 ∧ s.discovered.length = 4 ∧ s.photoPlantIds.length = 4 ∧
  (∀ p ∈ s.plants, 0 ≤ p.id ∧ p.id < 4) ∧
  (∀ v ∈ s.discovered, v = 0 ∨ v = 1) ∧
  s.photoIndex = discoveredCount s ∧
  (s.savedFiles.length : Int) = s.photoIndex

instance (s : State) : Decidable (WellFormed s) := by
  unfold WellFormed; infer_instance

/-- Any two registry entries are at least 400 apart on the x axis. -/
def Spaced (l : List Plant) : Prop :=
  l.Pairwise (fun p q => 400 ≤ |p.x - q.x|)

/-- Each plant of `added`, appended in order after `old`, is at least 400 from
every entry before it. -/
def SpacedFrom (old : List Plant) : List Plant → Prop
  | [] => True
  | p :: rest => (∀ q ∈ old, 400 ≤ |p.x - q.x|) ∧ SpacedFrom (old ++ [p]) rest

/-- The sum of the per-species snap counters. -/
def snapSum (s : State) : Int :=
  arrGet s.plantSnaps 0 + arrGet s.plantSnaps 1 + arrGet s.plantSnaps 2 + arrGet s.plantSnaps 3

/-- A step from `s` to `t` that photographs nothing: it may append plants, each at
least 400 from the entries before it and of a species in 0..3, and keeps the
counters, the discovery state and the saved files. -/
def Neutral (s t : State) : Prop :=
  ∃ added, t.plants = s.plants ++ added ∧ SpacedFrom s.plants added ∧
    (∀ p ∈ added, 0 ≤ p.id ∧ p.id < 4) ∧
    t.plantSnaps = s.plantSnaps ∧ t.discovered = s.discovered ∧
    t.photoPlantIds = s.photoPlantIds ∧ t.photoIndex = s.photoIndex ∧
    t.snapCount = s.snapCount ∧ t.savedFiles = s.savedFiles

/-- What holds of every state of a run: it is well formed, the total snap
counter is the sum of the per-species counters, and the registry is spaced. -/
def RunInv (s : State) : Prop :=
  WellFormed s ∧ s.snapCount = snapSum s ∧ Spaced s.plants

/-- Every array access of a capture of `p` in state `s` is within bounds: the
three per-species arrays have four entries, the species of `p` indexes them, and
when the species is not discovered photoIndex indexes photoPlantIds. -/
def AccessesInBounds (s : State) (p : Plant) : Prop :=
  s.plantSnaps.length = 4 ∧ s.discovered.length = 4 ∧ s.photoPlantIds.length = 4 ∧
  (0 ≤ p.id ∧ p.id < 4) ∧
  (arrGet s.discovered p.id = 0 → 0 ≤ s.photoIndex ∧ s.photoIndex < 4)

instance (s : State) (p : Plant) : Decidable (AccessesInBounds s p) := by
  unfold AccessesInBounds; infer_instance

/-! ## Sample states -/

/-- A plant of species 2 at (50, ground level), as `addPlant` creates it. -/
def paintbrush : Plant := ⟨50, 656, plantSprites 2, 1, 2⟩

/-- Player at world x = 0 next to `paintbrush`, cursor on the middle of its
sprite. -/
def nearState : State :=
  { initialGlobals 64 with
    plants := [paintbrush], playerWorldX := 0, cameraX := -640, mouseX := 722, mouseY := 688 }

/-- The state `nearState` with its plant already photographed, cursor still on
the place of the sprite. -/
def emptyGroundState : State :=
  { nearState with plants := [{ paintbrush with active := 0 }] }

/-- An oracle for `rand()` whose first fifteen values are 399 and whose later
values are 0: strides of 999 at first, of 600 afterwards. -/
def strideOracle : Nat → Nat := fun k => if k < 15 then 399 else 0

/-- Player at world x = 0 with plants every 700 units: every position of the
window [-2000, 2000) is within 400 units of one of them. -/
def coveredState : State :=
  { initialGlobals 64 with
    playerWorldX := 0, cameraX := -640,
    plants := [⟨-1700, 656, plantSprites 0, 1, 0⟩, ⟨-1000, 656, plantSprites 1, 1, 1⟩,
               ⟨-300, 656, plantSprites 2, 1, 2⟩, ⟨400, 656, plantSprites 3, 1, 3⟩,
               ⟨1100, 656, plantSprites 0, 1, 0⟩, ⟨1800, 656, plantSprites 1, 1, 1⟩] }

/-- A frame with no event and only the A key held. -/
def walkLeft : FrameInput := ⟨[], true, false, 0, 0⟩

/-- A short run of the program: the first top-up, one frame that puts the cursor
on the plant next to the player, and a left click. -/
def sampleSteps : List Step :=
  [Step.generate, Step.update ⟨[], false, false, 670, 688⟩, Step.event Event.leftClick]

/-! ## The scan of `takePhoto` -/

theorem showMessage_short (msg : String) (s : State) (h : msg.length < 256) :
    showMessage msg s = { s with messageBuffer := msg, messageTimer := 180 } := by
  simp [showMessage, snprintf, h]

theorem split_at_index {α : Type} (l : List α) (i : Nat) (p : α) (h : l[i]? = some p) :
    l = l.take i ++ p :: l.drop (i + 1) := by
  induction l generalizing i with
  | nil => simp at h
  | cons a l ih =>
    cases i with
    | zero => simp at h; simp [h]
    | succ i =>
      simp only [List.getElem?_cons_succ] at h
      simp only [List.take_succ_cons, List.drop_succ_cons, List.cons_append]
      rw [← ih i h]

theorem takePhotoLoop_skip (s : State) (fb : SDL_Rect) (pre rest : List Plant) (i : Nat)
    (h : ∀ q ∈ pre, ¬ (q.active ≠ 0 ∧
      SDL_HasIntersection fb ⟨q.x - s.cameraX, q.y, 64, 64⟩ = true)) :
    takePhotoLoop s fb i (pre ++ rest) = takePhotoLoop s fb (i + pre.length) rest := by
  induction pre generalizing i with
  | nil => simp
  | cons q pre ih =>
    have hq := h q (by simp)
    have ih1 := ih (i + 1) (fun q1 hq1 => h q1 (by simp [hq1]))
    have hlen : i + 1 + pre.length = i + (pre.length + 1) := by omega
    rw [hlen] at ih1
    simp only [List.cons_append, takePhotoLoop, List.length_cons]
    by_cases ha : q.active = 0
    · simp only [ha, if_true]; exact ih1
    · have hb : SDL_HasIntersection fb ⟨q.x - s.cameraX, q.y, 64, 64⟩ = false := by
        cases hc : SDL_HasIntersection fb ⟨q.x - s.cameraX, q.y, 64, 64⟩ with
        | false => rfl
        | true => exact absurd ⟨ha, hc⟩ hq
      simp only [ha, if_false, hb, if_true]; exact ih1

theorem takePhoto_of_noCandidate (s : State) (h : ∀ q ∈ s.plants, ¬ isCandidate s q) :
    takePhoto s = showMessage "Nothing to photograph there!" s := by
  have := takePhotoLoop_skip s ⟨s.mouseX - 16, s.mouseY - 16, 32, 32⟩ s.plants [] 0 h
  simp only [List.append_nil] at this
  rw [takePhoto, this]; rfl

theorem takePhoto_of_firstTarget (s : State) (i : Nat) (p : Plant) (h : FirstTarget s i p) :
    takePhoto s = if distSq s p > 65536 then showMessage "Out of focus! Get closer :]" s
      else capturePlant s i p := by
  obtain ⟨hi, hc, hpre⟩ := h
  have hsplit := split_at_index s.plants i p hi
  have hlen : (s.plants.take i).length = i := by
    have : i < s.plants.length := by
      rcases Nat.lt_or_ge i s.plants.length with h1 | h1
      · exact h1
      · rw [List.getElem?_eq_none h1] at hi; cases hi
    simp [List.length_take]; omega
  have hskip := takePhotoLoop_skip s ⟨s.mouseX - 16, s.mouseY - 16, 32, 32⟩
    (s.plants.take i) (p :: s.plants.drop (i + 1)) 0 hpre
  rw [← hsplit, hlen, Nat.zero_add] at hskip
  rw [takePhoto, hskip]
  obtain ⟨ha, hb⟩ := hc
  have hb1 : SDL_HasIntersection ⟨s.mouseX - 16, s.mouseY - 16, 32, 32⟩
      ⟨p.x - s.cameraX, p.y, 64, 64⟩ = true := hb
  have hd : distSq s p = (s.playerWorldX - p.x) * (s.playerWorldX - p.x)
      + (s.playerY - p.y) * (s.playerY - p.y) := by unfold distSq; ring
  simp only [takePhotoLoop, ha, if_false, hb1, hd, FOCUS_RANGE]
  norm_num

theorem firstTarget_or_none (s : State) :
    (∀ q ∈ s.plants, ¬ isCandidate s q) ∨ ∃ i p, FirstTarget s i p := by
  have key : ∀ l : List Plant, (∀ q ∈ l, ¬ isCandidate s q) ∨
      ∃ i p, l[i]? = some p ∧ isCandidate s p ∧ ∀ q ∈ l.take i, ¬ isCandidate s q := by
    intro l
    induction l with
    | nil => left; simp
    | cons a l ih =>
      by_cases ha : isCandidate s a
      · right; exact ⟨0, a, by simp, ha, by simp⟩
      · rcases ih with h | ⟨i, p, h1, h2, h3⟩
        · left; intro q hq
          rcases List.mem_cons.1 hq with rfl | hq
          · exact ha
          · exact h q hq
        · right
          refine ⟨i + 1, p, by simpa using h1, h2, ?_⟩
          intro q hq
          rw [List.take_succ_cons] at hq
          rcases List.mem_cons.1 hq with rfl | hq
          · exact ha
          · exact h3 q hq
  exact key s.plants

/-! ## Arrays -/

theorem arrGet_arrSet_same (a : List Int) (i v : Int) (h0 : 0 ≤ i) (h1 : i < a.length) :
    arrGet (arrSet a i v) i = v := by
  have h2 : i.toNat < a.length := by omega
  simp [arrGet, arrSet, h0, List.getD_eq_getElem?_getD, List.getElem?_set, h2]

theorem arrGet_arrSet_other (a : List Int) (i k v : Int) (h : k ≠ i) :
    arrGet (arrSet a i v) k = arrGet a k := by
  unfold arrGet arrSet
  by_cases hk : 0 ≤ k
  · by_cases hi : 0 ≤ i
    · have h2 : i.toNat ≠ k.toNat := by omega
      simp [hk, hi, List.getD_eq_getElem?_getD, List.getElem?_set, h2]
    · simp [hk, hi]
  · simp [hk]

theorem length_arrSet (a : List Int) (i v : Int) : (arrSet a i v).length = a.length := by
  unfold arrSet; split <;> simp

/-- The four entries of an array of length four. -/
theorem eq_four {a : List Int} (h : a.length = 4) :
    ∃ w x y z, a = [w, x, y, z] := by
  match a, h with
  | [w, x, y, z], _ => exact ⟨w, x, y, z, rfl⟩

/-- With an undiscovered species left, fewer than four photos were taken. -/
theorem photoIndex_lt_of_undiscovered (s : State) (hwf : WellFormed s) (k : Int)
    (h0 : 0 ≤ k) (h1 : k < 4) (hk : arrGet s.discovered k = 0) :
    0 ≤ s.photoIndex ∧ s.photoIndex < 4 := by
  obtain ⟨-, hd, -, -, -, hpi, -⟩ := hwf
  obtain ⟨w, x, y, z, hwxyz⟩ := eq_four hd
  rw [hpi, discoveredCount, hwxyz]
  rw [hwxyz] at hk
  have hk4 : k = 0 ∨ k = 1 ∨ k = 2 ∨ k = 3 := by omega
  constructor
  · exact Int.natCast_nonneg _
  · rcases hk4 with rfl | rfl | rfl | rfl <;>
      simp [arrGet, List.getD_eq_getElem?_getD] at hk <;>
      subst hk <;>
      simp [List.filter_cons] <;> split_ifs <;> simp

/-! ## The success path -/

theorem capturePlant_known (s : State) (i : Nat) (p : Plant)
    (hk : arrGet s.discovered p.id ≠ 0) :
    capturePlant s i p =
      { s with plants := s.plants.set i { p with active := 0 },
               plantSnaps := arrSet s.plantSnaps p.id (arrGet s.plantSnaps p.id + 1),
               snapCount := s.snapCount + 1 } := by
  simp [capturePlant, hk]

theorem fileName_fits (k : Int) (h0 : 0 ≤ k) (h1 : k < 4) :
    snprintf 64 ("gallery/photo_" ++ toString k ++ ".png")
      = "gallery/photo_" ++ toString k ++ ".png" := by
  have hk4 : k = 0 ∨ k = 1 ∨ k = 2 ∨ k = 3 := by omega
  rcases hk4 with rfl | rfl | rfl | rfl <;> decide

theorem newPlantMessage_fits (k : Int) :
    snprintf 256 (snprintf 128 ("New plant documented: " ++ plantNames k ++ "!"))
      = "New plant documented: " ++ plantNames k ++ "!" := by
  unfold plantNames
  split_ifs <;> decide

theorem capturePlant_new (s : State) (i : Nat) (p : Plant)
    (hk : arrGet s.discovered p.id = 0) (h0 : 0 ≤ s.photoIndex) (h1 : s.photoIndex < 4) :
    capturePlant s i p =
      { s with discovered := arrSet s.discovered p.id 1,
               savedFiles := s.savedFiles ++ ["gallery/photo_" ++ toString s.photoIndex ++ ".png"],
               photoPlantIds := arrSet s.photoPlantIds s.photoIndex p.id,
               photoIndex := s.photoIndex + 1,
               messageBuffer := "New plant documented: " ++ plantNames p.id ++ "!",
               messageTimer := 180,
               plants := s.plants.set i { p with active := 0 },
               plantSnaps := arrSet s.plantSnaps p.id (arrGet s.plantSnaps p.id + 1),
               snapCount := s.snapCount + 1 } := by
  simp [capturePlant, hk, showMessage, saveScreenshot, renderSceneNoUI,
    fileName_fits s.photoIndex h0 h1, newPlantMessage_fits]

theorem mem_of_firstTarget {s : State} {i : Nat} {p : Plant} (h : FirstTarget s i p) :
    p ∈ s.plants := by
  have h2 := split_at_index s.plants i p h.1
  rw [h2]; simp

/-! ## Capture rule: the three outcomes of a click -/

theorem takePhoto_far (s : State) (i : Nat) (p : Plant)
    (h : FirstTarget s i p) (hfar : distSq s p > 65536) :
    takePhoto s =
      { s with messageBuffer := "Out of focus! Get closer :]", messageTimer := 180 } := by
  rw [takePhoto_of_firstTarget s i p h, if_pos hfar]
  exact showMessage_short _ s (by decide)

theorem takePhoto_none (s : State) (h : ∀ q ∈ s.plants, ¬ isCandidate s q) :
    takePhoto s =
      { s with messageBuffer := "Nothing to photograph there!", messageTimer := 180 } := by
  rw [takePhoto_of_noCandidate s h]
  exact showMessage_short _ s (by decide)

/-- C7: when no active plant has its screen box intersecting the focus box,
`takePhoto` sets the message to "Nothing to photograph there!" (and starts its
display timer) and changes nothing else. -/
theorem takePhoto_nothing (s : State) (h : ∀ q ∈ s.plants, ¬ isCandidate s q) :
    takePhoto s =
      { s with messageBuffer := "Nothing to photograph there!", messageTimer := 180 } :=
  takePhoto_none s h

/-- Every plant of a well-formed state can be captured with all array accesses
within bounds. -/
theorem accessesInBounds_of_wellFormed (s : State) (p : Plant) (hwf : WellFormed s)
    (hp : p ∈ s.plants) : AccessesInBounds s p :=
  ⟨hwf.1, hwf.2.1, hwf.2.2.1, hwf.2.2.2.1 p hp,
    fun hk => photoIndex_lt_of_undiscovered s hwf p.id (hwf.2.2.2.1 p hp).1 (hwf.2.2.2.1 p hp).2 hk⟩

/-- C6: when the first candidate `p = plants[i]` is within 256 units of the
player (and the array accesses of the call are within bounds, as in every state
of a run), `takePhoto` deactivates it and leaves the other registry entries as
they are, adds 1 to plantSnaps[p.id] and to snapCount and leaves the other
species' counters as they are.  If the species was not discovered it is marked
discovered, the image is saved under "gallery/photo_<k>.png" for the old
photoIndex k, p.id is stored in photoPlantIds[k], photoIndex grows by 1 and the
message is "New plant documented: <name>!".  If it was discovered, the discovered
flags, photoIndex, photoPlantIds, the message and the saved files are unchanged. -/
theorem takePhoto_capture (s : State) (i : Nat) (p : Plant) (hb : AccessesInBounds s p)
    (h : FirstTarget s i p) (hnear : distSq s p ≤ 256 ^ 2) :
    (takePhoto s).plants = s.plants.set i { p with active := 0 } ∧
    arrGet (takePhoto s).plantSnaps p.id = arrGet s.plantSnaps p.id + 1 ∧
    (∀ k, k ≠ p.id → arrGet (takePhoto s).plantSnaps k = arrGet s.plantSnaps k) ∧
    (takePhoto s).snapCount = s.snapCount + 1 ∧
    (arrGet s.discovered p.id = 0 →
      arrGet (takePhoto s).discovered p.id = 1 ∧
      (∀ k, k ≠ p.id → arrGet (takePhoto s).discovered k = arrGet s.discovered k) ∧
      (takePhoto s).savedFiles
        = s.savedFiles ++ ["gallery/photo_" ++ toString s.photoIndex ++ ".png"] ∧
      arrGet (takePhoto s).photoPlantIds s.photoIndex = p.id ∧
      (∀ k, k ≠ s.photoIndex →
        arrGet (takePhoto s).photoPlantIds k = arrGet s.photoPlantIds k) ∧
      (takePhoto s).photoIndex = s.photoIndex + 1 ∧
      (takePhoto s).messageBuffer = "New plant documented: " ++ plantNames p.id ++ "!" ∧
      (p.id = 2 →
        (takePhoto s).messageBuffer = "New plant documented: Golden Paintbrush!")) ∧
    (arrGet s.discovered p.id ≠ 0 →
      (takePhoto s).discovered = s.discovered ∧
      (takePhoto s).photoIndex = s.photoIndex ∧
      (takePhoto s).photoPlantIds = s.photoPlantIds ∧
      (takePhoto s).messageBuffer = s.messageBuffer ∧
      (takePhoto s).messageTimer = s.messageTimer ∧
      (takePhoto s).savedFiles = s.savedFiles) := by
  have hnear1 : ¬ distSq s p > 65536 := by norm_num at hnear; omega
  obtain ⟨hlenS, hlenD, hlenP, hid, hpi⟩ := hb
  rw [takePhoto_of_firstTarget s i p h, if_neg hnear1]
  by_cases hk : arrGet s.discovered p.id = 0
  · obtain ⟨hp0, hp4⟩ := hpi hk
    rw [capturePlant_new s i p hk hp0 hp4]
    refine ⟨rfl, ?_, ?_, rfl, fun _ => ⟨?_, ?_, rfl, ?_, ?_, rfl, rfl, ?_⟩, fun hne => absurd hk hne⟩
    · exact arrGet_arrSet_same _ _ _ hid.1 (by omega)
    · intro k hne; exact arrGet_arrSet_other _ _ _ _ hne
    · exact arrGet_arrSet_same _ _ _ hid.1 (by omega)
    · intro k hne; exact arrGet_arrSet_other _ _ _ _ hne
    · exact arrGet_arrSet_same _ _ _ hp0 (by omega)
    · intro k hne; exact arrGet_arrSet_other _ _ _ _ hne
    · intro h2; simp [h2, plantNames]
  · rw [capturePlant_known s i p hk]
    refine ⟨rfl, ?_, ?_, rfl, fun h0 => absurd h0 hk, fun _ => ⟨rfl, rfl, rfl, rfl, rfl, rfl⟩⟩
    · exact arrGet_arrSet_same _ _ _ hid.1 (by omega)
    · intro k hne; exact arrGet_arrSet_other _ _ _ _ hne

/-- Witness of C7: the cursor on the place of a plant that is no longer active. -/
theorem takePhoto_nothing_witness :
    (∀ q ∈ emptyGroundState.plants, ¬ isCandidate emptyGroundState q) ∧
    takePhoto emptyGroundState =
      { emptyGroundState with
        messageBuffer := "Nothing to photograph there!", messageTimer := 180 } :=
  ⟨by decide, takePhoto_nothing emptyGroundState (by decide)⟩

/-- Witness of C6: the first photo of a Golden Paintbrush 50 units away. -/
theorem takePhoto_capture_witness :
    AccessesInBounds nearState paintbrush ∧ FirstTarget nearState 0 paintbrush ∧
    distSq nearState paintbrush ≤ 256 ^ 2 ∧
    (takePhoto nearState).plants = [{ paintbrush with active := 0 }] ∧
    (takePhoto nearState).snapCount = 1 ∧
    (takePhoto nearState).savedFiles = ["gallery/photo_0.png"] ∧
    (takePhoto nearState).messageBuffer = "New plant documented: Golden Paintbrush!" := by
  have h := takePhoto_capture nearState 0 paintbrush (by decide) (by decide) (by decide)
  exact ⟨by decide, by decide, by decide, h.1, h.2.2.2.1, (h.2.2.2.2.1 (by decide)).2.2.1,
    (h.2.2.2.2.1 (by decide)).2.2.2.2.2.2.2 rfl⟩

/-! ## World generator -/

theorem plantExistsNearLoop_eq_zero (l : List Plant) (x : Int) :
    plantExistsNearLoop l x = 0 ↔ ∀ q ∈ l, 400 ≤ |q.x - x| := by
  induction l with
  | nil => simp [plantExistsNearLoop]
  | cons a l ih =>
    simp only [plantExistsNearLoop, List.mem_cons, forall_eq_or_imp]
    by_cases h : |a.x - x| < 400
    · simp only [h, if_true]
      constructor
      · intro h1; exact absurd h1 (by decide)
      · intro h1; omega
    · simp only [h, if_false, ih]
      constructor
      · intro h1; exact ⟨by omega, h1⟩
      · intro h1; exact h1.2

theorem spacedFrom_append (old a1 a2 : List Plant) (h1 : SpacedFrom old a1)
    (h2 : SpacedFrom (old ++ a1) a2) : SpacedFrom old (a1 ++ a2) := by
  induction a1 generalizing old with
  | nil => simpa using h2
  | cons p a1 ih =>
    obtain ⟨hp, hrest⟩ := h1
    refine ⟨hp, ih (old ++ [p]) hrest ?_⟩
    simpa using h2

theorem spacedFrom_index (old added : List Plant) (h : SpacedFrom old added) :
    ∀ k p, added[k]? = some p → ∀ q ∈ old ++ added.take k, 400 ≤ |p.x - q.x| := by
  induction added generalizing old with
  | nil => intro k p hk; simp at hk
  | cons a added ih =>
    obtain ⟨ha, hrest⟩ := h
    intro k p hk q hq
    cases k with
    | zero =>
      simp at hk; subst hk
      simp at hq
      exact ha q hq
    | succ k =>
      simp only [List.getElem?_cons_succ] at hk
      refine ih (old ++ [a]) hrest k p hk q ?_
      simpa using hq

theorem tmod_rand_bounds (n : Nat) (m : Int) (hm : 0 < m) :
    0 ≤ (n : Int).tmod m ∧ (n : Int).tmod m < m := by
  rw [Int.tmod_eq_emod (Int.natCast_nonneg n) (le_of_lt hm)]
  exact ⟨Int.emod_nonneg _ (by omega), Int.emod_lt_of_pos _ hm⟩

theorem generateLoop_succ (r : Nat → Nat) (gy vm : Int) (fuel : Nat) (x : Int) (s : State)
    (hx : x < vm) :
    generateLoop r gy vm (fuel + 1) x s
      = generateLoop r gy vm fuel
          (x + (600 + (rand r (placeCandidate r gy x s)).1.tmod 400))
          (rand r (placeCandidate r gy x s)).2 := by
  simp only [generateLoop, hx, if_true]

theorem generateLoop_done (r : Nat → Nat) (gy vm : Int) (fuel : Nat) (x : Int) (s : State)
    (hx : ¬ x < vm) : generateLoop r gy vm fuel x s = s := by
  cases fuel <;> simp [generateLoop, hx]

theorem rand_snd (r : Nat → Nat) (s : State) :
    (rand r s).2 = { s with randCalls := s.randCalls + 1 } := rfl

theorem rand_fst (r : Nat → Nat) (s : State) : (rand r s).1 = (r s.randCalls : Int) := rfl

theorem addPlant_eq (s : State) (x y id : Int) :
    addPlant s x y id
      = { s with plants := s.plants ++ [⟨x, y, plantSprites id, 1, id⟩],
                 plantCapacity := (ensureCapacity s).plantCapacity } := by
  unfold addPlant ensureCapacity
  split_ifs <;> rfl

/-- What the loop body does to the state: it appends at most one plant, at least
400 from every entry, of a species in 0..3, and changes nothing but the registry
and the count of `rand()` calls. -/
theorem placeCandidate_spec (r : Nat → Nat) (gy x : Int) (s : State) :
    ∃ added cap rc,
      placeCandidate r gy x s
        = { s with plants := s.plants ++ added, plantCapacity := cap, randCalls := rc } ∧
      SpacedFrom s.plants added ∧
      (∀ p ∈ added, 0 ≤ p.id ∧ p.id < 4) ∧
      (plantExistsNear s x ≠ 0 → added = []) := by
  by_cases hnear : plantExistsNear s x = 0
  · have hfar := (plantExistsNearLoop_eq_zero s.plants x).1 hnear
    refine ⟨[⟨x, gy + (((r (s.randCalls + 1) : Int)).tmod 6 - 3),
      plantSprites (((r s.randCalls : Int)).tmod PLANT_TYPES), 1,
      ((r s.randCalls : Int)).tmod PLANT_TYPES⟩],
      (ensureCapacity { s with randCalls := s.randCalls + 1 + 1 }).plantCapacity,
      s.randCalls + 1 + 1, ?_, ?_, ?_, ?_⟩
    · simp only [placeCandidate, hnear, if_true, rand, addPlant_eq]
    · refine ⟨fun q hq => ?_, trivial⟩
      have := hfar q hq
      rw [abs_sub_comm]; exact this
    · intro p hp
      rw [List.mem_singleton] at hp
      subst hp
      exact tmod_rand_bounds _ 4 (by decide)
    · intro h; exact absurd hnear h
  · exact ⟨[], s.plantCapacity, s.randCalls, by simp [placeCandidate, hnear], trivial,
      by simp, fun _ => rfl⟩

/-- What the loop of the generator does to the state: it appends plants, each at
least 400 from every entry before it and of a species in 0..3, and changes
nothing but the registry and the count of `rand()` calls. -/
theorem generateLoop_spec (r : Nat → Nat) (gy vm : Int) (fuel : Nat) (x : Int) (s : State) :
    ∃ added cap rc,
      generateLoop r gy vm fuel x s
        = { s with plants := s.plants ++ added, plantCapacity := cap, randCalls := rc } ∧
      SpacedFrom s.plants added ∧
      ∀ p ∈ added, 0 ≤ p.id ∧ p.id < 4 := by
  induction fuel generalizing x s with
  | zero => exact ⟨[], s.plantCapacity, s.randCalls, by simp [generateLoop], trivial, by simp⟩
  | succ fuel ih =>
    by_cases hx : x < vm
    · obtain ⟨a1, c1, rc1, h1, hsp1, hid1, -⟩ := placeCandidate_spec r gy x s
      obtain ⟨a2, c2, rc2, h2, hsp2, hid2⟩ := ih
        (x + (600 + (rand r (placeCandidate r gy x s)).1.tmod 400))
        (rand r (placeCandidate r gy x s)).2
      refine ⟨a1 ++ a2, c2, rc2, ?_, ?_, ?_⟩
      · rw [generateLoop_succ r gy vm fuel x s hx, h2, rand_snd, h1]
        simp
      · refine spacedFrom_append s.plants a1 a2 hsp1 ?_
        rw [rand_snd, h1] at hsp2
        exact hsp2
      · intro p hp
        rcases List.mem_append.1 hp with hp | hp
        · exact hid1 p hp
        · exact hid2 p hp
    · exact ⟨[], s.plantCapacity, s.randCalls, by simp [generateLoop_done r gy vm _ x s hx],
        trivial, by simp⟩

theorem generate_spec (r : Nat → Nat) (s : State) :
    ∃ added cap rc,
      generatePlantsAroundPlayer r s
        = { s with plants := s.plants ++ added, plantCapacity := cap, randCalls := rc } ∧
      SpacedFrom s.plants added ∧
      ∀ p ∈ added, 0 ≤ p.id ∧ p.id < 4 :=
  generateLoop_spec r _ _ _ _ s

/-- C2: the plants that `generatePlantsAroundPlayer` appends come after the old
registry, and each of them is at least 400 x-units from every entry that was in
the registry when it was inserted: the old entries (active or not) and the plants
appended before it in the same call. -/
theorem generate_keeps_distance (r : Nat → Nat) (s : State) :
    ∃ added, (generatePlantsAroundPlayer r s).plants = s.plants ++ added ∧
      ∀ k p, added[k]? = some p → ∀ q ∈ s.plants ++ added.take k, 400 ≤ |p.x - q.x| := by
  obtain ⟨added, cap, rc, heq, hsp, -⟩ := generate_spec r s
  exact ⟨added, by rw [heq], spacedFrom_index s.plants added hsp⟩

/-- The loop of the generator ends by its own exit test: any fuel that is at
least the distance from the candidate to the end of the window gives the same
state. -/
theorem generateLoop_fuel_irrelevant (r : Nat → Nat) (gy vm : Int) (f1 f2 : Nat) (x : Int)
    (s : State) (h1 : (vm - x).toNat ≤ f1) (h2 : (vm - x).toNat ≤ f2) :
    generateLoop r gy vm f1 x s = generateLoop r gy vm f2 x s := by
  induction f1 generalizing f2 x s with
  | zero =>
    have hx : ¬ x < vm := by omega
    rw [generateLoop_done r gy vm _ x s hx, generateLoop_done r gy vm _ x s hx]
  | succ f1 ih =>
    by_cases hx : x < vm
    · cases f2 with
      | zero => omega
      | succ f2 =>
        rw [generateLoop_succ r gy vm f1 x s hx, generateLoop_succ r gy vm f2 x s hx]
        have hb := (tmod_rand_bounds (r (placeCandidate r gy x s).randCalls) 400 (by decide)).1
        rw [← rand_fst] at hb
        exact ih f2 _ _ (by omega) (by omega)
    · rw [generateLoop_done r gy vm _ x s hx, generateLoop_done r gy vm _ x s hx]

theorem generateLoop_covered (r : Nat → Nat) (gy vm : Int) (fuel : Nat) (x : Int) (s : State)
    (hcov : ∀ c, x ≤ c → c < vm → ∃ q ∈ s.plants, |q.x - c| < 400) :
    (generateLoop r gy vm fuel x s).plants = s.plants := by
  induction fuel generalizing x s with
  | zero => rfl
  | succ fuel ih =>
    by_cases hx : x < vm
    · have hnear : plantExistsNear s x ≠ 0 := by
        intro h0
        obtain ⟨q, hq, hlt⟩ := hcov x le_rfl hx
        have := (plantExistsNearLoop_eq_zero s.plants x).1 h0 q hq
        omega
      have hpc : placeCandidate r gy x s = s := by simp [placeCandidate, hnear]
      rw [generateLoop_succ r gy vm fuel x s hx, hpc]
      have hb := (tmod_rand_bounds (r s.randCalls) 400 (by decide)).1
      rw [← rand_fst] at hb
      rw [ih (x + (600 + (rand r s).1.tmod 400)) (rand r s).2]
      · rfl
      · intro c hc1 hc2
        exact hcov c (by omega) hc2
    · rw [generateLoop_done r gy vm _ x s hx]

/-- C3, as the code has it: a top-up appends no plant when every position of the
window [playerWorldX - 2000, playerWorldX + 2000) is within 400 x-units of a
registry entry, whatever strides it draws. -/
theorem generate_covered_window (r : Nat → Nat) (s : State)
    (hcov : ∀ c, s.playerWorldX - 2000 ≤ c → c < s.playerWorldX + 2000 →
      ∃ q ∈ s.plants, |q.x - c| < 400) :
    (generatePlantsAroundPlayer r s).plants = s.plants :=
  generateLoop_covered r _ _ _ _ s hcov

/-- C3 fails as stated: from the initial globals (player at 640) a first run with
strides of 999 places plants at -1360, -361, 638, 1637, 2636, and a second run for
the same player position with strides of 600 reaches the candidate 1040, which is
402 from 638 and 597 from 1637, and appends a sixth plant there.  These are the
first two top-ups of the program: the one before the main loop and the one of
the first frame when no key is held. -/
theorem topUp_second_run_appends :
    (generatePlantsAroundPlayer strideOracle (initialGlobals 64)).playerWorldX = 640 ∧
    (generatePlantsAroundPlayer strideOracle (initialGlobals 64)).plants.map Plant.x
      = [-1360, -361, 638, 1637, 2636] ∧
    (generatePlantsAroundPlayer strideOracle
      (generatePlantsAroundPlayer strideOracle (initialGlobals 64))).plants.map Plant.x
      = [-1360, -361, 638, 1637, 2636, 1040] ∧
    (generatePlantsAroundPlayer strideOracle
      (generatePlantsAroundPlayer strideOracle (initialGlobals 64))).plants
      ≠ (generatePlantsAroundPlayer strideOracle (initialGlobals 64)).plants ∧
    (frame strideOracle (initialState strideOracle 64) ⟨[], false, false, 0, 0⟩).playerWorldX
      = (initialState strideOracle 64).playerWorldX ∧
    (frame strideOracle (initialState strideOracle 64) ⟨[], false, false, 0, 0⟩).plants.length
      = (initialState strideOracle 64).plants.length + 1 := by
  decide

/-- Witness of C3 as the code has it: a window covered by plants 700 apart. -/
theorem generate_covered_window_witness :
    (generatePlantsAroundPlayer strideOracle coveredState).plants = coveredState.plants := by
  apply generate_covered_window strideOracle coveredState
  intro c h1 h2
  have h3 : coveredState.playerWorldX = 0 := rfl
  rw [h3] at h1 h2
  simp only [coveredState, initialGlobals, List.mem_cons, List.mem_singleton, exists_eq_or_imp,
    exists_eq_left, List.not_mem_nil, false_and, exists_false, or_false, abs_lt]
  omega

/-! ## Steps of a run -/

theorem neutral_of_eq {s t : State} (h1 : t.plants = s.plants)
    (h2 : t.plantSnaps = s.plantSnaps) (h3 : t.discovered = s.discovered)
    (h4 : t.photoPlantIds = s.photoPlantIds) (h5 : t.photoIndex = s.photoIndex)
    (h6 : t.snapCount = s.snapCount) (h7 : t.savedFiles = s.savedFiles) : Neutral s t :=
  ⟨[], by simp [h1], trivial, by simp, h2, h3, h4, h5, h6, h7⟩

theorem neutral_trans {a b c : State} (h1 : Neutral a b) (h2 : Neutral b c) : Neutral a c := by
  obtain ⟨x, hx, hsx, hix, e1, e2, e3, e4, e5, e6⟩ := h1
  obtain ⟨y, hy, hsy, hiy, f1, f2, f3, f4, f5, f6⟩ := h2
  refine ⟨x ++ y, by rw [hy, hx, List.append_assoc],
    spacedFrom_append _ _ _ hsx (by rw [← hx]; exact hsy), ?_,
    f1.trans e1, f2.trans e2, f3.trans e3, f4.trans e4, f5.trans e5, f6.trans e6⟩
  intro p hp
  rcases List.mem_append.1 hp with hp | hp
  · exact hix p hp
  · exact hiy p hp

theorem neutral_showMessage (m : String) (s : State) : Neutral s (showMessage m s) :=
  neutral_of_eq rfl rfl rfl rfl rfl rfl rfl

theorem neutral_renderMessage (s : State) : Neutral s (renderMessage s) := by
  unfold renderMessage
  split_ifs <;> exact neutral_of_eq rfl rfl rfl rfl rfl rfl rfl

theorem neutral_generate (r : Nat → Nat) (s : State) :
    Neutral s (generatePlantsAroundPlayer r s) := by
  obtain ⟨added, cap, rc, heq, hsp, hid⟩ := generate_spec r s
  rw [heq]
  exact ⟨added, rfl, hsp, hid, rfl, rfl, rfl, rfl, rfl, rfl⟩

theorem neutral_movePlayer (s : State) (inp : FrameInput) : Neutral s (movePlayer s inp) := by
  rcases inp with ⟨ev, a, d, mx, my⟩
  cases a <;> cases d <;> exact neutral_of_eq rfl rfl rfl rfl rfl rfl rfl

theorem neutral_updateFrame (r : Nat → Nat) (s : State) (inp : FrameInput) :
    Neutral s (updateFrame r s inp) := by
  have h1 := neutral_movePlayer s inp
  have h2 := neutral_generate r (movePlayer s inp)
  have h3 : Neutral (generatePlantsAroundPlayer r (movePlayer s inp))
      { generatePlantsAroundPlayer r (movePlayer s inp) with mouseX := inp.mx, mouseY := inp.my } :=
    neutral_of_eq rfl rfl rfl rfl rfl rfl rfl
  exact neutral_trans h1 (neutral_trans h2 (neutral_trans h3 (neutral_renderMessage _)))

theorem takePhoto_cases (s : State) :
    (∃ m, takePhoto s = showMessage m s) ∨
    ∃ i p, FirstTarget s i p ∧ distSq s p ≤ 65536 ∧ takePhoto s = capturePlant s i p := by
  rcases firstTarget_or_none s with h | ⟨i, p, h⟩
  · exact Or.inl ⟨_, takePhoto_of_noCandidate s h⟩
  · by_cases hd : distSq s p > 65536
    · left; exact ⟨_, by rw [takePhoto_of_firstTarget s i p h, if_pos hd]⟩
    · right; exact ⟨i, p, h, by omega, by rw [takePhoto_of_firstTarget s i p h, if_neg hd]⟩

/-- Every step either photographs nothing or is a click that captures the first
candidate. -/
theorem step_cases (r : Nat → Nat) (s : State) (st : Step) :
    Neutral s (step r s st) ∨
    ∃ i p, st = Step.event Event.leftClick ∧ FirstTarget s i p ∧ distSq s p ≤ 65536 ∧
      step r s st = capturePlant s i p := by
  cases st with
  | generate => exact Or.inl (neutral_generate r s)
  | update inp => exact Or.inl (neutral_updateFrame r s inp)
  | event e =>
    cases e with
    | leftClick =>
      rcases takePhoto_cases s with ⟨m, h⟩ | ⟨i, p, h1, h2, h3⟩
      · left
        show Neutral s (takePhoto s)
        rw [h]; exact neutral_showMessage m s
      · exact Or.inr ⟨i, p, rfl, h1, h2, h3⟩
    | keyG =>
      left
      show Neutral s (viewGallery s)
      unfold viewGallery
      split_ifs
      · exact neutral_showMessage _ s
      · exact neutral_of_eq rfl rfl rfl rfl rfl rfl rfl
    | quit => exact Or.inl (neutral_of_eq rfl rfl rfl rfl rfl rfl rfl)
    | keyEscape => exact Or.inl (neutral_of_eq rfl rfl rfl rfl rfl rfl rfl)
    | keyF11 => exact Or.inl (neutral_of_eq rfl rfl rfl rfl rfl rfl rfl)
    | keyC => exact Or.inl (neutral_of_eq rfl rfl rfl rfl rfl rfl rfl)
    | other => exact Or.inl (neutral_of_eq rfl rfl rfl rfl rfl rfl rfl)

theorem run_append (r : Nat → Nat) (s : State) (a b : List Step) :
    run r s (a ++ b) = run r (run r s a) b := by
  induction a generalizing s with
  | nil => rfl
  | cons st a ih => exact ih (step r s st)

theorem pollEvents_eq_run (r : Nat → Nat) (s : State) (evs : List Event) :
    pollEvents s evs = run r s (evs.map Step.event) := by
  induction evs generalizing s with
  | nil => rfl
  | cons e evs ih => exact ih (handleEvent s e)

/-- Every state of the main loop is the state after a sequence of steps. -/
theorem mainLoop_eq_run (r : Nat → Nat) (s : State) (inputs : List FrameInput) :
    ∃ steps, mainLoop r s inputs = run r s steps := by
  induction inputs generalizing s with
  | nil => exact ⟨[], rfl⟩
  | cons inp rest ih =>
    by_cases hr : s.running ≠ 0
    · obtain ⟨steps, h⟩ := ih (frame r s inp)
      refine ⟨inp.events.map Step.event ++ [Step.update inp] ++ steps, ?_⟩
      rw [run_append, run_append, ← pollEvents_eq_run]
      have hm : mainLoop r s (inp :: rest) = mainLoop r (frame r s inp) rest := by
        simp only [mainLoop]; rw [if_pos hr]
      rw [hm, h]; rfl
    · exact ⟨[], by simp only [mainLoop]; rw [if_neg hr]; rfl⟩

/-- Every state of the program at a point of event polling, in any iteration of
the main loop, is the state after a sequence of steps from the initial globals. -/
theorem polling_state_eq_stateAfter (r : Nat → Nat) (playerH : Int)
    (inputs : List FrameInput) (evs : List Event) :
    ∃ steps, pollEvents (mainLoop r (initialState r playerH) inputs) evs
      = stateAfter r playerH steps := by
  obtain ⟨steps, h⟩ := mainLoop_eq_run r (initialState r playerH) inputs
  refine ⟨[Step.generate] ++ steps ++ evs.map Step.event, ?_⟩
  rw [stateAfter, run_append, run_append, ← pollEvents_eq_run, h]
  rfl

/-! ## Invariants of a run -/

theorem spaced_append (old added : List Plant) (h1 : Spaced old) (h2 : SpacedFrom old added) :
    Spaced (old ++ added) := by
  induction added generalizing old with
  | nil => simpa using h1
  | cons p rest ih =>
    obtain ⟨hp, hrest⟩ := h2
    have h3 : Spaced (old ++ [p]) := by
      unfold Spaced at h1 ⊢
      rw [List.pairwise_append]
      refine ⟨h1, List.pairwise_singleton _ _, ?_⟩
      intro a ha b hb
      rw [List.mem_singleton] at hb
      subst hb
      rw [abs_sub_comm]; exact hp a ha
    have := ih (old ++ [p]) h3 hrest
    simpa using this

theorem set_eq_split (l : List Plant) (i : Nat) (p v : Plant) (h : l[i]? = some p) :
    l.set i v = l.take i ++ v :: l.drop (i + 1) := by
  induction l generalizing i with
  | nil => simp at h
  | cons a l ih =>
    cases i with
    | zero => simp
    | succ i =>
      simp only [List.getElem?_cons_succ] at h
      simp only [List.set_cons_succ, List.take_succ_cons, List.drop_succ_cons, List.cons_append]
      rw [ih i h]

theorem map_x_set (l : List Plant) (i : Nat) (p : Plant) (h : l[i]? = some p) :
    (l.set i { p with active := 0 }).map Plant.x = l.map Plant.x := by
  have h1 := set_eq_split l i p { p with active := 0 } h
  have h2 := split_at_index l i p h
  rw [h1]
  conv_rhs => rw [h2]
  simp

theorem spaced_iff_map (l : List Plant) :
    Spaced l ↔ (l.map Plant.x).Pairwise (fun a b => 400 ≤ |a - b|) := by
  unfold Spaced
  rw [List.pairwise_map]

theorem spaced_set (l : List Plant) (i : Nat) (p : Plant) (h : l[i]? = some p)
    (hs : Spaced l) : Spaced (l.set i { p with active := 0 }) := by
  rw [spaced_iff_map] at hs ⊢
  rw [map_x_set l i p h]; exact hs

theorem mem_set_id (l : List Plant) (i : Nat) (p : Plant) (h : l[i]? = some p)
    (q : Plant) (hq : q ∈ l.set i { p with active := 0 }) : ∃ q0 ∈ l, q.id = q0.id := by
  rw [set_eq_split l i p _ h] at hq
  have h2 := split_at_index l i p h
  rcases List.mem_append.1 hq with h3 | h3
  · exact ⟨q, List.mem_of_mem_take h3, rfl⟩
  · rcases List.mem_cons.1 h3 with h4 | h4
    · exact ⟨p, by rw [h2]; simp, by rw [h4]⟩
    · exact ⟨q, List.mem_of_mem_drop h4, rfl⟩

theorem snapSum_bump (a : List Int) (k : Int) (ha : a.length = 4) (h0 : 0 ≤ k) (h1 : k < 4) :
    arrGet (arrSet a k (arrGet a k + 1)) 0 + arrGet (arrSet a k (arrGet a k + 1)) 1
      + arrGet (arrSet a k (arrGet a k + 1)) 2 + arrGet (arrSet a k (arrGet a k + 1)) 3
    = arrGet a 0 + arrGet a 1 + arrGet a 2 + arrGet a 3 + 1 := by
  obtain ⟨w, x, y, z, rfl⟩ := eq_four ha
  have hk4 : k = 0 ∨ k = 1 ∨ k = 2 ∨ k = 3 := by omega
  rcases hk4 with rfl | rfl | rfl | rfl <;> simp [arrGet, arrSet] <;> ring

theorem discovered_mark (a : List Int) (k : Int) (ha : a.length = 4) (h0 : 0 ≤ k) (h1 : k < 4)
    (hk : arrGet a k = 0) (h01 : ∀ v ∈ a, v = 0 ∨ v = 1) :
    (((arrSet a k 1).filter (fun v => v ≠ 0)).length : Int)
      = ((a.filter (fun v => v ≠ 0)).length : Int) + 1 ∧
    ∀ v ∈ arrSet a k 1, v = 0 ∨ v = 1 := by
  obtain ⟨w, x, y, z, rfl⟩ := eq_four ha
  have hk4 : k = 0 ∨ k = 1 ∨ k = 2 ∨ k = 3 := by omega
  have hw := h01 w (by simp)
  have hx := h01 x (by simp)
  have hy := h01 y (by simp)
  have hz := h01 z (by simp)
  revert hk
  rcases hk4 with rfl | rfl | rfl | rfl <;>
    rcases hw with rfl | rfl <;> rcases hx with rfl | rfl <;>
    rcases hy with rfl | rfl <;> rcases hz with rfl | rfl <;>
    decide

theorem runInv_neutral {s t : State} (h : Neutral s t) (hi : RunInv s) : RunInv t := by
  obtain ⟨added, hpl, hsp, hid, e1, e2, e3, e4, e5, e6⟩ := h
  obtain ⟨⟨w1, w2, w3, w4, w5, w6, w7⟩, hsum, hspaced⟩ := hi
  refine ⟨⟨by rw [e1]; exact w1, by rw [e2]; exact w2, by rw [e3]; exact w3, ?_,
    by rw [e2]; exact w5, ?_, by rw [e6, e4]; exact w7⟩, ?_, ?_⟩
  · intro p hp
    rw [hpl] at hp
    rcases List.mem_append.1 hp with hp | hp
    · exact w4 p hp
    · exact hid p hp
  · rw [e4, w6]; unfold discoveredCount; rw [e2]
  · rw [e5, hsum]; unfold snapSum; rw [e1]
  · rw [hpl]; exact spaced_append _ _ hspaced hsp

theorem runInv_capture (s : State) (i : Nat) (p : Plant) (hi : RunInv s)
    (hp : s.plants[i]? = some p) : RunInv (capturePlant s i p) := by
  have hwf := hi.1
  obtain ⟨⟨w1, w2, w3, w4, w5, w6, w7⟩, hsum, hspaced⟩ := hi
  have hmem : p ∈ s.plants := by
    have h2 := split_at_index s.plants i p hp
    rw [h2]; simp
  have hid := w4 p hmem
  have hids : ∀ q ∈ s.plants.set i { p with active := 0 }, 0 ≤ q.id ∧ q.id < 4 := by
    intro q hq
    obtain ⟨q0, hq0, he⟩ := mem_set_id s.plants i p hp q hq
    rw [he]; exact w4 q0 hq0
  have hbump := snapSum_bump s.plantSnaps p.id w1 hid.1 hid.2
  by_cases hk : arrGet s.discovered p.id = 0
  · obtain ⟨hp0, hp4⟩ := photoIndex_lt_of_undiscovered s hwf p.id hid.1 hid.2 hk
    obtain ⟨hcount, h01⟩ := discovered_mark s.discovered p.id w2 hid.1 hid.2 hk w5
    rw [capturePlant_new s i p hk hp0 hp4]
    refine ⟨⟨by simp [length_arrSet, w1], by simp [length_arrSet, w2],
      by simp [length_arrSet, w3], hids, h01, ?_, ?_⟩, ?_, spaced_set _ _ _ hp hspaced⟩
    · show s.photoIndex + 1 = _
      unfold discoveredCount
      rw [w6]
      exact hcount.symm
    · show ((s.savedFiles ++ [_]).length : Int) = s.photoIndex + 1
      rw [List.length_append, ← w7]; simp
    · show s.snapCount + 1 = _
      rw [hsum]; exact hbump.symm
  · rw [capturePlant_known s i p hk]
    refine ⟨⟨by simp [length_arrSet, w1], w2, w3, hids, w5, w6, w7⟩, ?_,
      spaced_set _ _ _ hp hspaced⟩
    show s.snapCount + 1 = _
    rw [hsum]; exact hbump.symm

theorem runInv_step (r : Nat → Nat) (s : State) (st : Step) (hi : RunInv s) :
    RunInv (step r s st) := by
  rcases step_cases r s st with h | ⟨i, p, -, h1, -, h3⟩
  · exact runInv_neutral h hi
  · rw [h3]; exact runInv_capture s i p hi h1.1

theorem runInv_run (r : Nat → Nat) (s : State) (steps : List Step) (hi : RunInv s) :
    RunInv (run r s steps) := by
  induction steps generalizing s with
  | nil => exact hi
  | cons st rest ih => exact ih (step r s st) (runInv_step r s st hi)

theorem runInv_initialGlobals (playerH : Int) : RunInv (initialGlobals playerH) := by
  refine ⟨⟨rfl, rfl, rfl, ?_, ?_, ?_, ?_⟩, ?_, ?_⟩
  · intro p hp; simp [initialGlobals] at hp
  · intro v hv; simp [initialGlobals] at hv; exact Or.inl hv
  · simp [initialGlobals, discoveredCount]
  · simp [initialGlobals]
  · simp [initialGlobals, snapSum, arrGet]
  · simp [initialGlobals, Spaced]

theorem runInv_stateAfter (r : Nat → Nat) (playerH : Int) (steps : List Step) :
    RunInv (stateAfter r playerH steps) :=
  runInv_run r _ steps (runInv_initialGlobals playerH)

/-! ## Counters -/

/-- C5: after any sequence of steps from the initial globals (clicks that
capture, clicks out of focus, clicks on nothing, top-ups, movement), snapCount is
plantSnaps[0] + plantSnaps[1] + plantSnaps[2] + plantSnaps[3].  A click that
captures (first candidate within 256 units) raises snapCount and the sum by
exactly 1, whether or not the species was discovered; a click out of focus or on
nothing changes neither. -/
theorem snapCount_eq_sum (r : Nat → Nat) (playerH : Int) (steps : List Step) :
    (stateAfter r playerH steps).snapCount
      = arrGet (stateAfter r playerH steps).plantSnaps 0
        + arrGet (stateAfter r playerH steps).plantSnaps 1
        + arrGet (stateAfter r playerH steps).plantSnaps 2
        + arrGet (stateAfter r playerH steps).plantSnaps 3 ∧
    (∀ i p, FirstTarget (stateAfter r playerH steps) i p →
      distSq (stateAfter r playerH steps) p ≤ 256 ^ 2 →
      (takePhoto (stateAfter r playerH steps)).snapCount
        = (stateAfter r playerH steps).snapCount + 1 ∧
      snapSum (takePhoto (stateAfter r playerH steps))
        = snapSum (stateAfter r playerH steps) + 1) ∧
    (∀ i p, FirstTarget (stateAfter r playerH steps) i p →
      distSq (stateAfter r playerH steps) p > 256 ^ 2 →
      (takePhoto (stateAfter r playerH steps)).snapCount
        = (stateAfter r playerH steps).snapCount ∧
      (takePhoto (stateAfter r playerH steps)).plantSnaps
        = (stateAfter r playerH steps).plantSnaps) ∧
    ((∀ q ∈ (stateAfter r playerH steps).plants, ¬ isCandidate (stateAfter r playerH steps) q) →
      (takePhoto (stateAfter r playerH steps)).snapCount
        = (stateAfter r playerH steps).snapCount ∧
      (takePhoto (stateAfter r playerH steps)).plantSnaps
        = (stateAfter r playerH steps).plantSnaps) := by
  have hinv := runInv_stateAfter r playerH steps
  generalize stateAfter r playerH steps = s at hinv ⊢
  refine ⟨hinv.2.1, ?_, ?_, ?_⟩
  · intro i p h hnear
    have hnear1 : ¬ distSq s p > 65536 := by norm_num at hnear; omega
    have hcap := runInv_capture s i p hinv h.1
    have htp : takePhoto s = capturePlant s i p := by
      rw [takePhoto_of_firstTarget s i p h, if_neg hnear1]
    have hsnap : (capturePlant s i p).snapCount = s.snapCount + 1 := by
      unfold capturePlant; split_ifs <;> rfl
    rw [htp]
    refine ⟨hsnap, ?_⟩
    rw [← hcap.2.1, hsnap, hinv.2.1]
  · intro i p h hfar
    rw [takePhoto_far s i p h (by norm_num at hfar; exact hfar)]
    exact ⟨rfl, rfl⟩
  · intro h
    rw [takePhoto_none s h]
    exact ⟨rfl, rfl⟩

/-! ## Discovery -/

theorem discovered_kept_step (r : Nat → Nat) (s : State) (st : Step) (hi : RunInv s) (d : Int)
    (hd : arrGet s.discovered d = 1) : arrGet (step r s st).discovered d = 1 := by
  rcases step_cases r s st with h | ⟨i, p, -, h1, -, h3⟩
  · obtain ⟨_, -, -, -, -, e2, -⟩ := h
    rw [e2]; exact hd
  · rw [h3]
    have hid := hi.1.2.2.2.1 p (mem_of_firstTarget h1)
    by_cases hk : arrGet s.discovered p.id = 0
    · obtain ⟨hp0, hp4⟩ := photoIndex_lt_of_undiscovered s hi.1 p.id hid.1 hid.2 hk
      rw [capturePlant_new s i p hk hp0 hp4]
      show arrGet (arrSet s.discovered p.id 1) d = 1
      by_cases hdp : d = p.id
      · rw [hdp] at hd; omega
      · rw [arrGet_arrSet_other _ _ _ _ hdp]; exact hd
    · rw [capturePlant_known s i p hk]; exact hd

theorem discovered_kept_run (r : Nat → Nat) (s : State) (more : List Step) (hi : RunInv s)
    (d : Int) (hd : arrGet s.discovered d = 1) : arrGet (run r s more).discovered d = 1 := by
  induction more generalizing s with
  | nil => exact hd
  | cons st rest ih =>
    exact ih (step r s st) (runInv_step r s st hi) (discovered_kept_step r s st hi d hd)

theorem photoIndex_bounds (s : State) (hwf : WellFormed s) :
    0 ≤ s.photoIndex ∧ s.photoIndex ≤ 4 := by
  obtain ⟨-, hd, -, -, -, hpi, -⟩ := hwf
  rw [hpi, discoveredCount]
  constructor
  · exact Int.natCast_nonneg _
  · have h1 := List.length_filter_le (fun v => decide (v ≠ 0)) s.discovered
    omega

/-- C4: along every sequence of steps from the initial globals: photoIndex is the
number of discovered species, lies in 0..4, one file was written per photo, and
the flags are 0 or 1;
a discovered flag that is set stays set in every later state; every step either
leaves the discovery state (flags, photoIndex, photoPlantIds, saved files) as it
is, or is a click that sets the flag of exactly one species from 0 to 1, writes
exactly one image, "gallery/photo_<photoIndex>.png", raises photoIndex by exactly
1 and writes photoPlantIds[photoIndex] at an index in 0..3; and once a click has
set the flag of species `d`, no later click changes it from 0 to 1. -/
theorem discovery_once (r : Nat → Nat) (playerH : Int) (steps : List Step) (d : Int) :
    ((stateAfter r playerH steps).photoIndex = discoveredCount (stateAfter r playerH steps) ∧
      0 ≤ (stateAfter r playerH steps).photoIndex ∧
      (stateAfter r playerH steps).photoIndex ≤ 4 ∧
      ((stateAfter r playerH steps).savedFiles.length : Int)
        = (stateAfter r playerH steps).photoIndex ∧
      (stateAfter r playerH steps).photoPlantIds.length = 4 ∧
      (∀ v ∈ (stateAfter r playerH steps).discovered, v = 0 ∨ v = 1)) ∧
    (∀ more, arrGet (stateAfter r playerH steps).discovered d = 1 →
      arrGet (run r (stateAfter r playerH steps) more).discovered d = 1) ∧
    (∀ st,
      ((step r (stateAfter r playerH steps) st).discovered
          = (stateAfter r playerH steps).discovered ∧
        (step r (stateAfter r playerH steps) st).photoIndex
          = (stateAfter r playerH steps).photoIndex ∧
        (step r (stateAfter r playerH steps) st).photoPlantIds
          = (stateAfter r playerH steps).photoPlantIds ∧
        (step r (stateAfter r playerH steps) st).savedFiles
          = (stateAfter r playerH steps).savedFiles) ∨
      (st = Step.event Event.leftClick ∧
        ∃ k, 0 ≤ k ∧ k < 4 ∧
          arrGet (stateAfter r playerH steps).discovered k = 0 ∧
          arrGet (takePhoto (stateAfter r playerH steps)).discovered k = 1 ∧
          (∀ j, j ≠ k → arrGet (takePhoto (stateAfter r playerH steps)).discovered j
            = arrGet (stateAfter r playerH steps).discovered j) ∧
          (takePhoto (stateAfter r playerH steps)).photoIndex
            = (stateAfter r playerH steps).photoIndex + 1 ∧
          (takePhoto (stateAfter r playerH steps)).savedFiles
            = (stateAfter r playerH steps).savedFiles
              ++ ["gallery/photo_" ++ toString (stateAfter r playerH steps).photoIndex ++ ".png"] ∧
          0 ≤ (stateAfter r playerH steps).photoIndex ∧
          (stateAfter r playerH steps).photoIndex < 4 ∧
          (takePhoto (stateAfter r playerH steps)).photoPlantIds
            = (stateAfter r playerH steps).photoPlantIds.set
                (stateAfter r playerH steps).photoIndex.toNat k)) ∧
    (arrGet (stateAfter r playerH steps).discovered d = 0 →
      arrGet (takePhoto (stateAfter r playerH steps)).discovered d = 1 →
      ∀ more,
        ¬ (arrGet (run r (takePhoto (stateAfter r playerH steps)) more).discovered d = 0 ∧
          arrGet (takePhoto (run r (takePhoto (stateAfter r playerH steps)) more)).discovered d
            = 1)) := by
  have hinv := runInv_stateAfter r playerH steps
  generalize stateAfter r playerH steps = s at hinv ⊢
  have hb := photoIndex_bounds s hinv.1
  refine ⟨⟨hinv.1.2.2.2.2.2.1, hb.1, hb.2, hinv.1.2.2.2.2.2.2, hinv.1.2.2.1,
    hinv.1.2.2.2.2.1⟩, ?_, ?_, ?_⟩
  · intro more hd
    exact discovered_kept_run r s more hinv d hd
  · intro st
    rcases step_cases r s st with h | ⟨i, p, hst, h1, -, h3⟩
    · obtain ⟨_, -, -, -, -, e2, e3, e4, -, e6⟩ := h
      exact Or.inl ⟨e2, e4, e3, e6⟩
    · have htp : takePhoto s = capturePlant s i p := by rw [← h3, hst]; rfl
      have hid := hinv.1.2.2.2.1 p (mem_of_firstTarget h1)
      by_cases hk : arrGet s.discovered p.id = 0
      · obtain ⟨hp0, hp4⟩ := photoIndex_lt_of_undiscovered s hinv.1 p.id hid.1 hid.2 hk
        right
        refine ⟨hst, p.id, hid.1, hid.2, hk, ?_, ?_, ?_, ?_, hp0, hp4, ?_⟩
        · rw [htp, capturePlant_new s i p hk hp0 hp4]
          exact arrGet_arrSet_same _ _ _ hid.1 (by have := hinv.1.2.1; omega)
        · intro j hj
          rw [htp, capturePlant_new s i p hk hp0 hp4]
          exact arrGet_arrSet_other _ _ _ _ hj
        · rw [htp, capturePlant_new s i p hk hp0 hp4]
        · rw [htp, capturePlant_new s i p hk hp0 hp4]
        · rw [htp, capturePlant_new s i p hk hp0 hp4]
          show arrSet s.photoPlantIds s.photoIndex p.id = _
          unfold arrSet; rw [if_pos hp0]
      · left
        rw [h3, capturePlant_known s i p hk]
        exact ⟨rfl, rfl, rfl, rfl⟩
  · intro _ h1 more hcon
    have hinv2 : RunInv (takePhoto s) := runInv_step r s (Step.event Event.leftClick) hinv
    have := discovered_kept_run r (takePhoto s) more hinv2 d h1
    omega

/-! ## One candidate under the cursor -/

theorem spaced_index (l : List Plant) (hs : Spaced l) (i j : Nat) (p q : Plant) (hij : i ≠ j)
    (hp : l[i]? = some p) (hq : l[j]? = some q) : 400 ≤ |p.x - q.x| := by
  obtain ⟨hi, rfl⟩ := List.getElem?_eq_some.1 hp
  obtain ⟨hj, rfl⟩ := List.getElem?_eq_some.1 hq
  have hpw := List.pairwise_iff_getElem.1 hs
  rcases Nat.lt_or_gt_of_ne hij with h | h
  · exact hpw i j hi hj h
  · rw [abs_sub_comm]; exact hpw j i hj hi h

theorem intersect_bounds (fx fy cam : Int) (p : Plant)
    (h : SDL_HasIntersection ⟨fx, fy, 32, 32⟩ ⟨p.x - cam, p.y, 64, 64⟩ = true) :
    fx - 64 < p.x - cam ∧ p.x - cam < fx + 32 := by
  unfold SDL_HasIntersection at h
  simp only at h
  split_ifs at h
  omega

theorem one_hit (l : List Plant) (hs : Spaced l) (cam mx my : Int) (i j : Nat) (p q : Plant)
    (hp : l[i]? = some p) (hq : l[j]? = some q)
    (h1 : SDL_HasIntersection ⟨mx - 16, my - 16, 32, 32⟩ ⟨p.x - cam, p.y, 64, 64⟩ = true)
    (h2 : SDL_HasIntersection ⟨mx - 16, my - 16, 32, 32⟩ ⟨q.x - cam, q.y, 64, 64⟩ = true) :
    i = j := by
  by_contra hij
  have h3 := spaced_index l hs i j p q hij hp hq
  have h4 := intersect_bounds _ _ _ _ h1
  have h5 := intersect_bounds _ _ _ _ h2
  rw [le_abs] at h3
  omega

theorem only_candidate (s : State) (hs : Spaced s.plants) (i : Nat) (p : Plant)
    (h : FirstTarget s i p) (j : Nat) (q : Plant) (hq : s.plants[j]? = some q)
    (hc : isCandidate s q) : j = i :=
  one_hit s.plants hs s.cameraX s.mouseX s.mouseY j i q p hq h.1 hc.2 h.2.1.2

theorem perm_set (l m : List Plant) (hlm : l.Perm m) (i j : Nat) (p v : Plant)
    (hj : l[j]? = some p) (hi : m[i]? = some p) : (l.set j v).Perm (m.set i v) := by
  rw [set_eq_split l j p v hj, set_eq_split m i p v hi]
  have h1 := split_at_index l j p hj
  have h2 := split_at_index m i p hi
  rw [h1, h2] at hlm
  have h3 : (l.take j ++ l.drop (j + 1)).Perm (m.take i ++ m.drop (i + 1)) :=
    List.Perm.cons_inv ((List.perm_middle.symm.trans hlm).trans List.perm_middle)
  exact (List.perm_middle.trans (h3.cons v)).trans List.perm_middle.symm

theorem capturePlant_plants (s : State) (i : Nat) (p : Plant) :
    (capturePlant s i p).plants = s.plants.set i { p with active := 0 } := by
  unfold capturePlant
  split_ifs
  · rfl
  · rfl

theorem capturePlant_reorder (s : State) (l : List Plant) (i j : Nat) (p : Plant) :
    capturePlant { s with plants := l } j p
      = { capturePlant s i p with plants := l.set j { p with active := 0 } } := by
  by_cases hk : arrGet s.discovered p.id = 0
  · simp [capturePlant, hk, showMessage, saveScreenshot, renderSceneNoUI]
  · simp [capturePlant, hk]

/-- With a spaced registry the outcome of `takePhoto` does not depend on the
order of the registry. -/
theorem takePhoto_reorder (s : State) (hs : Spaced s.plants) (l : List Plant)
    (hl : l.Perm s.plants) :
    ∃ l2, l2.Perm (takePhoto s).plants ∧
      takePhoto { s with plants := l } = { takePhoto s with plants := l2 } := by
  rcases firstTarget_or_none s with hnone | ⟨i, p, h⟩
  · have hnone2 : ∀ q ∈ ({ s with plants := l } : State).plants,
        ¬ isCandidate { s with plants := l } q := by
      intro q hq
      exact hnone q (hl.mem_iff.1 hq)
    refine ⟨l, ?_, ?_⟩
    · rw [takePhoto_of_noCandidate s hnone]; exact hl
    · rw [takePhoto_of_noCandidate s hnone, takePhoto_of_noCandidate _ hnone2]; rfl
  · have hpl : p ∈ l := hl.mem_iff.2 (mem_of_firstTarget h)
    rcases firstTarget_or_none { s with plants := l } with hnone | ⟨j, q, hq⟩
    · exact absurd h.2.1 (hnone p hpl)
    · have hqs : q ∈ s.plants := hl.mem_iff.1 (mem_of_firstTarget hq)
      obtain ⟨k, hk⟩ := List.mem_iff_getElem?.1 hqs
      have hki : k = i := only_candidate s hs i p h k q hk hq.2.1
      have hqp : q = p := by
        rw [hki] at hk
        have := hk.symm.trans h.1
        exact Option.some.inj this
      rw [hqp] at hq
      rw [takePhoto_of_firstTarget s i p h, takePhoto_of_firstTarget _ j p hq]
      have hdist : distSq { s with plants := l } p = distSq s p := rfl
      rw [hdist]
      by_cases hfar : distSq s p > 65536
      · rw [if_pos hfar, if_pos hfar]
        exact ⟨l, hl, rfl⟩
      · rw [if_neg hfar, if_neg hfar]
        refine ⟨l.set j { p with active := 0 }, ?_, capturePlant_reorder s l i j p⟩
        rw [capturePlant_plants]
        exact perm_set l s.plants hl i j p _ hq.1 h.1

/-- C9: in every registry of a run from the empty registry, any two distinct
entries are at least 400 apart on the x axis; so for every camera offset and
cursor position at most one entry has its 64x64 screen box intersecting the
32x32 focus box; the first candidate that `takePhoto` selects is the only
candidate; and with the entries in any other order `takePhoto` selects the same
plant and produces the same state, up to the order of the registry. -/
theorem single_candidate (r : Nat → Nat) (playerH : Int) (steps : List Step) :
    (∀ (i j : Nat) (p q : Plant), i ≠ j → (stateAfter r playerH steps).plants[i]? = some p →
      (stateAfter r playerH steps).plants[j]? = some q → 400 ≤ |p.x - q.x|) ∧
    (∀ (cam mx my : Int) (i j : Nat) (p q : Plant),
      (stateAfter r playerH steps).plants[i]? = some p →
      (stateAfter r playerH steps).plants[j]? = some q →
      SDL_HasIntersection ⟨mx - 16, my - 16, 32, 32⟩ ⟨p.x - cam, p.y, 64, 64⟩ = true →
      SDL_HasIntersection ⟨mx - 16, my - 16, 32, 32⟩ ⟨q.x - cam, q.y, 64, 64⟩ = true →
      i = j) ∧
    (∀ s : State, s.plants = (stateAfter r playerH steps).plants →
      (∀ (i : Nat) (p : Plant), FirstTarget s i p →
        ∀ (j : Nat) (q : Plant), s.plants[j]? = some q → isCandidate s q → j = i) ∧
      (∀ l, l.Perm s.plants →
        (∀ (i : Nat) (p : Plant), FirstTarget s i p →
          ∃ j, FirstTarget { s with plants := l } j p) ∧
        ∃ l2, l2.Perm (takePhoto s).plants ∧
          takePhoto { s with plants := l } = { takePhoto s with plants := l2 })) := by
  have hinv := (runInv_stateAfter r playerH steps).2.2
  generalize (stateAfter r playerH steps).plants = reg at hinv ⊢
  refine ⟨?_, ?_, ?_⟩
  · intro i j p q hij hp hq
    exact spaced_index reg hinv i j p q hij hp hq
  · intro cam mx my i j p q hp hq h1 h2
    exact one_hit reg hinv cam mx my i j p q hp hq h1 h2
  · intro s hsreg
    rw [← hsreg] at hinv
    refine ⟨fun i p h j q hq hc => only_candidate s hinv i p h j q hq hc, ?_⟩
    intro l hl
    refine ⟨?_, takePhoto_reorder s hinv l hl⟩
    intro i p h
    have hpl : p ∈ l := hl.mem_iff.2 (mem_of_firstTarget h)
    rcases firstTarget_or_none { s with plants := l } with hnone | ⟨j, q, hq⟩
    · exact absurd h.2.1 (hnone p hpl)
    · have hqs : q ∈ s.plants := hl.mem_iff.1 (mem_of_firstTarget hq)
      obtain ⟨k, hk⟩ := List.mem_iff_getElem?.1 hqs
      have hki : k = i := only_candidate s hinv i p h k q hk hq.2.1
      have hqp : q = p := by
        rw [hki] at hk
        exact Option.some.inj (hk.symm.trans h.1)
      rw [hqp] at hq
      exact ⟨j, hq⟩

/-! ## Camera and background -/

theorem generate_env (r : Nat → Nat) (s : State) :
    (generatePlantsAroundPlayer r s).cameraX = s.cameraX ∧
    (generatePlantsAroundPlayer r s).playerWorldX = s.playerWorldX ∧
    (generatePlantsAroundPlayer r s).currentBackground = s.currentBackground ∧
    (generatePlantsAroundPlayer r s).running = s.running := by
  obtain ⟨added, cap, rc, heq, -, -⟩ := generate_spec r s
  rw [heq]
  exact ⟨rfl, rfl, rfl, rfl⟩

theorem renderMessage_env (s : State) :
    (renderMessage s).cameraX = s.cameraX ∧
    (renderMessage s).playerWorldX = s.playerWorldX ∧
    (renderMessage s).currentBackground = s.currentBackground ∧
    (renderMessage s).running = s.running := by
  unfold renderMessage
  split_ifs
  · exact ⟨rfl, rfl, rfl, rfl⟩
  · exact ⟨rfl, rfl, rfl, rfl⟩

theorem movePlayer_env (s : State) (inp : FrameInput) :
    (movePlayer s inp).cameraX = (movePlayer s inp).playerWorldX - 640 ∧
    (movePlayer s inp).currentBackground = ((movePlayer s inp).playerWorldX.tdiv 3000).tmod 2 ∧
    (movePlayer s inp).running = s.running ∧
    (movePlayer s inp).playerWorldX
      = s.playerWorldX - (if inp.keyA then 2 else 0) + (if inp.keyD then 2 else 0) := by
  rcases inp with ⟨ev, a, d, mx, my⟩
  cases a <;> cases d <;> simp [movePlayer, WIDTH] <;> decide

theorem updateFrame_env (r : Nat → Nat) (s : State) (inp : FrameInput) :
    (updateFrame r s inp).cameraX = (updateFrame r s inp).playerWorldX - 640 ∧
    (updateFrame r s inp).currentBackground
      = ((updateFrame r s inp).playerWorldX.tdiv 3000).tmod 2 ∧
    (updateFrame r s inp).running = s.running ∧
    (updateFrame r s inp).playerWorldX
      = s.playerWorldX - (if inp.keyA then 2 else 0) + (if inp.keyD then 2 else 0) := by
  obtain ⟨m1, m2, m3, m4⟩ := movePlayer_env s inp
  obtain ⟨g1, g2, g3, g4⟩ := generate_env r (movePlayer s inp)
  obtain ⟨r1, r2, r3, r4⟩ := renderMessage_env
    { generatePlantsAroundPlayer r (movePlayer s inp) with mouseX := inp.mx, mouseY := inp.my }
  have hdef : updateFrame r s inp = renderMessage
      { generatePlantsAroundPlayer r (movePlayer s inp) with
        mouseX := inp.mx, mouseY := inp.my } := rfl
  rw [hdef, r1, r2, r3, r4]
  show (generatePlantsAroundPlayer r (movePlayer s inp)).cameraX
      = (generatePlantsAroundPlayer r (movePlayer s inp)).playerWorldX - 640 ∧
    (generatePlantsAroundPlayer r (movePlayer s inp)).currentBackground
      = ((generatePlantsAroundPlayer r (movePlayer s inp)).playerWorldX.tdiv 3000).tmod 2 ∧
    (generatePlantsAroundPlayer r (movePlayer s inp)).running = s.running ∧
    (generatePlantsAroundPlayer r (movePlayer s inp)).playerWorldX
      = s.playerWorldX - (if inp.keyA then 2 else 0) + (if inp.keyD then 2 else 0)
  rw [g1, g2, g3, g4]
  exact ⟨m1, m2, m3, m4⟩

theorem capturePlant_env (s : State) (i : Nat) (p : Plant) :
    (capturePlant s i p).cameraX = s.cameraX ∧
    (capturePlant s i p).playerWorldX = s.playerWorldX := by
  unfold capturePlant
  split_ifs
  · exact ⟨rfl, rfl⟩
  · exact ⟨rfl, rfl⟩

theorem handleEvent_env (s : State) (e : Event) :
    (handleEvent s e).cameraX = s.cameraX ∧
    (handleEvent s e).playerWorldX = s.playerWorldX := by
  cases e with
  | leftClick =>
    show (takePhoto s).cameraX = s.cameraX ∧ (takePhoto s).playerWorldX = s.playerWorldX
    rcases takePhoto_cases s with ⟨m, h⟩ | ⟨i, p, -, -, h⟩
    · rw [h]; exact ⟨rfl, rfl⟩
    · rw [h]; exact capturePlant_env s i p
  | keyG =>
    show (viewGallery s).cameraX = s.cameraX ∧ (viewGallery s).playerWorldX = s.playerWorldX
    unfold viewGallery
    split_ifs
    · exact ⟨rfl, rfl⟩
    · exact ⟨rfl, rfl⟩
  | quit => exact ⟨rfl, rfl⟩
  | keyEscape => exact ⟨rfl, rfl⟩
  | keyF11 => exact ⟨rfl, rfl⟩
  | keyC => exact ⟨rfl, rfl⟩
  | other => exact ⟨rfl, rfl⟩

theorem pollEvents_env (s : State) (evs : List Event) :
    (pollEvents s evs).cameraX = s.cameraX ∧
    (pollEvents s evs).playerWorldX = s.playerWorldX := by
  induction evs generalizing s with
  | nil => exact ⟨rfl, rfl⟩
  | cons e evs ih =>
    obtain ⟨h1, h2⟩ := handleEvent_env s e
    obtain ⟨h3, h4⟩ := ih (handleEvent s e)
    exact ⟨h3.trans h1, h4.trans h2⟩

theorem mainLoop_camera (r : Nat → Nat) (s : State) (inputs : List FrameInput)
    (h : s.cameraX = s.playerWorldX - 640) :
    (mainLoop r s inputs).cameraX = (mainLoop r s inputs).playerWorldX - 640 := by
  induction inputs generalizing s with
  | nil => exact h
  | cons inp rest ih =>
    simp only [mainLoop]
    split_ifs
    · exact ih (frame r s inp) (updateFrame_env r _ inp).1
    · exact h

theorem initialState_camera (r : Nat → Nat) (playerH : Int) :
    (initialState r playerH).cameraX = (initialState r playerH).playerWorldX - 640 := by
  obtain ⟨g1, g2, -, -⟩ := generate_env r (initialGlobals playerH)
  rw [initialState, g1, g2]
  show (0 : Int) = WIDTH.tdiv 2 - 640
  decide

/-- C8: the camera offset is the player position minus 640 (half the viewport
width) in the initial globals, on entry to the main loop, after every iteration
of the main loop (for every combination of the A and D keys, every event queue
and every cursor position), and at every point of event polling in the next
iteration, which is where `takePhoto` runs; the plant boxes it hit-tests are
therefore those of the player's current position. -/
theorem camera_follows_player (r : Nat → Nat) (playerH : Int) (inputs : List FrameInput)
    (evs : List Event) :
    (initialGlobals playerH).cameraX = (initialGlobals playerH).playerWorldX - 640 ∧
    (initialState r playerH).cameraX = (initialState r playerH).playerWorldX - 640 ∧
    (mainLoop r (initialState r playerH) inputs).cameraX
      = (mainLoop r (initialState r playerH) inputs).playerWorldX - 640 ∧
    (pollEvents (mainLoop r (initialState r playerH) inputs) evs).cameraX
      = (pollEvents (mainLoop r (initialState r playerH) inputs) evs).playerWorldX - 640 ∧
    (∀ p : Plant, plantBoxOf (pollEvents (mainLoop r (initialState r playerH) inputs) evs) p
      = ⟨p.x - ((pollEvents (mainLoop r (initialState r playerH) inputs) evs).playerWorldX - 640),
          p.y, 64, 64⟩) := by
  have h0 := initialState_camera r playerH
  have h1 := mainLoop_camera r (initialState r playerH) inputs h0
  obtain ⟨h2, h3⟩ := pollEvents_env (mainLoop r (initialState r playerH) inputs) evs
  have h4 : (pollEvents (mainLoop r (initialState r playerH) inputs) evs).cameraX
      = (pollEvents (mainLoop r (initialState r playerH) inputs) evs).playerWorldX - 640 := by
    rw [h2, h3]; exact h1
  have hg : (initialGlobals playerH).cameraX = (initialGlobals playerH).playerWorldX - 640 := by
    show (0 : Int) = WIDTH.tdiv 2 - 640
    decide
  refine ⟨hg, h0, h1, h4, ?_⟩
  intro p
  rw [plantBoxOf, h4]

/-! ## Background index -/

theorem walkLeft_frames (r : Nat → Nat) (n : Nat) (s : State) (hrun : s.running ≠ 0) :
    (mainLoop r s (List.replicate (n + 1) walkLeft)).playerWorldX
      = s.playerWorldX - 2 * ((n : Int) + 1) ∧
    (mainLoop r s (List.replicate (n + 1) walkLeft)).currentBackground
      = ((s.playerWorldX - 2 * ((n : Int) + 1)).tdiv 3000).tmod 2 := by
  induction n generalizing s with
  | zero =>
    obtain ⟨-, h2, -, h4⟩ := updateFrame_env r s walkLeft
    have hm : mainLoop r s (List.replicate (0 + 1) walkLeft) = updateFrame r s walkLeft := by
      simp only [List.replicate, mainLoop]
      rw [if_pos hrun]; rfl
    have h5 : (updateFrame r s walkLeft).playerWorldX = s.playerWorldX - 2 * ((0 : Nat) + 1) := by
      rw [h4]; simp [walkLeft]
    rw [hm, h2, h5]
    exact ⟨rfl, rfl⟩
  | succ n ih =>
    obtain ⟨-, -, h3, h4⟩ := updateFrame_env r s walkLeft
    have hm : mainLoop r s (List.replicate (n + 1 + 1) walkLeft)
        = mainLoop r (updateFrame r s walkLeft) (List.replicate (n + 1) walkLeft) := by
      rw [List.replicate_succ]
      simp only [mainLoop]
      rw [if_pos hrun]; rfl
    have h5 : (updateFrame r s walkLeft).playerWorldX = s.playerWorldX - 2 := by
      rw [h4]; simp [walkLeft]
    obtain ⟨i1, i2⟩ := ih (updateFrame r s walkLeft) (by rw [h3]; exact hrun)
    rw [hm, i1, i2, h5]
    push_cast
    have he : s.playerWorldX - 2 - 2 * ((n : Int) + 1) = s.playerWorldX - 2 * ((n : Int) + 1 + 1) := by
      ring
    rw [he]
    exact ⟨rfl, rfl⟩

/-- C10, at the failing input: from the start of the program, 1820 frames with
the A key held bring the player to world x = -3000, and the background index
computed in that frame is -1, outside the two-element `backgrounds` array. -/
theorem background_index_negative (r : Nat → Nat) (playerH : Int) :
    (mainLoop r (initialState r playerH) (List.replicate 1820 walkLeft)).playerWorldX = -3000 ∧
    (mainLoop r (initialState r playerH) (List.replicate 1820 walkLeft)).currentBackground
      = -1 := by
  obtain ⟨-, g2, -, g4⟩ := generate_env r (initialGlobals playerH)
  have hrun : (initialState r playerH).running ≠ 0 := by
    rw [initialState, g4]
    show (1 : Int) ≠ 0
    decide
  have hpw : (initialState r playerH).playerWorldX = 640 := by
    rw [initialState, g2]
    show WIDTH.tdiv 2 = 640
    decide
  obtain ⟨h1, h2⟩ := walkLeft_frames r 1819 (initialState r playerH) hrun
  rw [hpw] at h1 h2
  have e : (1819 + 1 : Nat) = 1820 := rfl
  rw [e] at h1 h2
  rw [h1, h2]
  constructor
  · norm_num
  · decide

/-! ## A sample run -/

/-- The click of `sampleSteps` captures the plant at world x = 638 next to the
player (at 640): its species, 3, becomes discovered, one image is written, both
counters become 1; a second click at the same place finds the plant inactive. -/
theorem sample_run_discovers :
    (stateAfter strideOracle 64 sampleSteps).discovered = [0, 0, 0, 1] ∧
    (stateAfter strideOracle 64 sampleSteps).photoIndex = 1 ∧
    (stateAfter strideOracle 64 sampleSteps).photoPlantIds = [3, 0, 0, 0] ∧
    (stateAfter strideOracle 64 sampleSteps).savedFiles = ["gallery/photo_0.png"] ∧
    (stateAfter strideOracle 64 sampleSteps).plantSnaps = [0, 0, 0, 1] ∧
    (stateAfter strideOracle 64 sampleSteps).snapCount = 1 ∧
    (stateAfter strideOracle 64 sampleSteps).messageBuffer
      = "New plant documented: Oregon Grape!" ∧
    (stateAfter strideOracle 64 (sampleSteps ++ [Step.event Event.leftClick])).messageBuffer
      = "Nothing to photograph there!" ∧
    (stateAfter strideOracle 64 (sampleSteps ++ [Step.event Event.leftClick])).snapCount = 1 := by
  decide

end OregonSnap
